import Mathlib

/-!
Verification of the version-bump decision engine of the `action-semver`
GitHub action (TypeScript sources under `src/`).

The TypeScript code is shallowly embedded: external collaborators (the
conventional-commit parser `@conventional-commits/parser`, the `semver`
library, and the GitHub API client results) are passed in as explicit
function / value parameters, side effects (`core.setFailed`,
`core.setOutput`) are recorded in explicit result values, and JS
`undefined` returns become `Option` / `Except` values.
-/

namespace ActionSemver

/-- A commit as used by the action: `{ sha, message }` (see the pushes in
`GitHubClient.getListOfCommitsBetween` and `src/github/types`). -/
structure Commit where
  sha : String
  message : String
deriving Repr, DecidableEq

/-- A footer note of a parsed conventional commit, as consumed by
`noteHasBreakingChange` in `logic.ts`: `{ title, text }`. -/
structure Note where
  title : String
  text : String
deriving Repr, DecidableEq

/-- The part of the output of
`cc.toConventionalChangelogFormat(cc.parser(message))` that
`getBumpTypeFromCommits` inspects: the `type` token and the footer
`notes`. -/
structure ParsedCommit where
  type : String
  notes : List Note
deriving Repr, DecidableEq

/-- `NotConventionalCommitsReaction` from `types.ts`
(`ERROR = 'error'`, `WARN = 'warn'`, `IGNORE = 'ignore'`). -/
inductive NotConventionalCommitsReaction where
  | ERROR
  | WARN
  | IGNORE
deriving Repr, DecidableEq

/-- The three `semver.ReleaseType` values that `getBumpTypeFromCommits`
can produce (`'major'`, `'minor'`, `'patch'`). -/
inductive ReleaseType where
  | major
  | minor
  | patch
deriving Repr, DecidableEq

/-- The severity order on bump types: PATCH < MINOR < MAJOR. -/
def severity : ReleaseType → Nat
  | ReleaseType.major => 2
  | ReleaseType.minor => 1
  | ReleaseType.patch => 0

/-- The constant `BREAKING_CHANGE = 'BREAKING CHANGE'` from `logic.ts`. -/
def BREAKING_CHANGE : String := "BREAKING CHANGE"

/-- The constant `MINOR_LIST = ['feat', 'feature']` from `logic.ts`. -/
def MINOR_LIST : List String := ["feat", "feature"]

/-- `noteHasBreakingChange` from `logic.ts`: the note's title must equal
`BREAKING_CHANGE` exactly (JS `===`, hence case-sensitive). -/
def noteHasBreakingChange (note : Note) : Bool :=
  note.title == BREAKING_CHANGE

/-- Embeds `IGNORE_MESSAGE_PATTERN.test(message)` from `logic.ts`, where
`IGNORE_MESSAGE_PATTERN = /(^Merge )/` (no multiline flag): the message
matches exactly when it starts with the literal token `"Merge "`
(written over the character lists so it reduces in the kernel). -/
def ignoreMessagePattern (message : String) : Bool :=
  "Merge ".data.isPrefixOf message.data

/-- Embeds JS `String.prototype.toLowerCase` as used on the parsed commit
type token (ASCII lowering, which is all the `MINOR_LIST` comparison can
observe), written over the character list so it reduces in the kernel. -/
def lowerString (s : String) : String :=
  String.mk (s.data.map Char.toLower)

/-- The `for` loop of `getBumpTypeFromCommits` in `logic.ts`, with the two
mutable flags `bumpMajor` / `bumpMinor` as explicit accumulator
parameters and the external parser
`cc.toConventionalChangelogFormat(cc.parser(·))` as the function
argument `parse` (`none` models a parse exception).  Under the ERROR
reaction a malformed message makes the source call
`core.setFailed(message)` and bare-`return` (JS `undefined`); this is
embedded as `Except.error` carrying the `setFailed` message. -/
def getBumpTypeFromCommitsAux (parse : String → Option ParsedCommit)
    (notConventionalCommitsReaction : NotConventionalCommitsReaction) :
    List Commit → Bool → Bool → Except String ReleaseType
  | [], bumpMajor, bumpMinor =>
    Except.ok
      (if bumpMajor then ReleaseType.major
       else if bumpMinor then ReleaseType.minor
       else ReleaseType.patch)
  | commit :: rest, bumpMajor, bumpMinor =>
    if ignoreMessagePattern commit.message then
      getBumpTypeFromCommitsAux parse notConventionalCommitsReaction rest bumpMajor bumpMinor
    else
      match parse commit.message with
      | some commitMessage =>
        if commitMessage.notes.any noteHasBreakingChange then
          getBumpTypeFromCommitsAux parse notConventionalCommitsReaction rest true bumpMinor
        else if MINOR_LIST.contains (lowerString commitMessage.type) then
          getBumpTypeFromCommitsAux parse notConventionalCommitsReaction rest bumpMajor true
        else
          getBumpTypeFromCommitsAux parse notConventionalCommitsReaction rest bumpMajor bumpMinor
      | none =>
        match notConventionalCommitsReaction with
        | NotConventionalCommitsReaction.ERROR =>
          Except.error ("Commit message not in conventional-commits format: \x27" ++ commit.message ++ "\x27")
        | NotConventionalCommitsReaction.WARN =>
          getBumpTypeFromCommitsAux parse notConventionalCommitsReaction rest bumpMajor bumpMinor
        | NotConventionalCommitsReaction.IGNORE =>
          getBumpTypeFromCommitsAux parse notConventionalCommitsReaction rest bumpMajor bumpMinor

/-- `getBumpTypeFromCommits` from `logic.ts`: both flags start `false`;
the final result is `major` if `bumpMajor`, else `minor` if `bumpMinor`,
else `patch`.  (The WARN reaction additionally logs a `core.warning`,
which has no bearing on the returned value.) -/
def getBumpTypeFromCommits (parse : String → Option ParsedCommit)
    (commits : List Commit)
    (notConventionalCommitsReaction : NotConventionalCommitsReaction) :
    Except String ReleaseType :=
  getBumpTypeFromCommitsAux parse notConventionalCommitsReaction commits false false

/-- The trace of messages handed to the parser collaborator by
`getBumpTypeFromCommits`, in order: ignored (merge) messages are never
parsed, and under the ERROR reaction the first malformed message is the
last parser call (the loop is exited by the bare `return`).  Derived
from the same control flow as `getBumpTypeFromCommitsAux`. -/
def parseAttempts (parse : String → Option ParsedCommit)
    (notConventionalCommitsReaction : NotConventionalCommitsReaction) :
    List Commit → List String
  | [] => []
  | commit :: rest =>
    if ignoreMessagePattern commit.message then
      parseAttempts parse notConventionalCommitsReaction rest
    else
      match parse commit.message with
      | some _ => commit.message :: parseAttempts parse notConventionalCommitsReaction rest
      | none =>
        match notConventionalCommitsReaction with
        | NotConventionalCommitsReaction.ERROR => [commit.message]
        | NotConventionalCommitsReaction.WARN =>
          commit.message :: parseAttempts parse notConventionalCommitsReaction rest
        | NotConventionalCommitsReaction.IGNORE =>
          commit.message :: parseAttempts parse notConventionalCommitsReaction rest

/-- A commit that sets the `bumpMajor` flag when processed: not ignored,
parses successfully, and some footer note satisfies
`noteHasBreakingChange`. -/
def commitTriggersMajor (parse : String → Option ParsedCommit) (c : Commit) : Bool :=
  !ignoreMessagePattern c.message &&
    (match parse c.message with
     | some p => p.notes.any noteHasBreakingChange
     | none => false)

/-- A commit whose lower-cased parsed type token is in `MINOR_LIST`
(not ignored and successfully parsed). -/
def commitHasMinorType (parse : String → Option ParsedCommit) (c : Commit) : Bool :=
  !ignoreMessagePattern c.message &&
    (match parse c.message with
     | some p => MINOR_LIST.contains (lowerString p.type)
     | none => false)

/-- A commit that sets the `bumpMinor` flag when processed: the else-if
branch of the loop, so additionally no breaking-change note. -/
def commitSetsMinorFlag (parse : String → Option ParsedCommit) (c : Commit) : Bool :=
  !ignoreMessagePattern c.message &&
    (match parse c.message with
     | some p => !p.notes.any noteHasBreakingChange && MINOR_LIST.contains (lowerString p.type)
     | none => false)

/-- The state of the two accumulated flags after the loop: `major` when
`bumpMajor` would be set (initial value or some remaining commit sets
it), else `minor` likewise, else `patch`.  Loop invariant used to
characterize `getBumpTypeFromCommitsAux`. -/
def bumpResult (parse : String → Option ParsedCommit) (commits : List Commit)
    (bumpMajor bumpMinor : Bool) : ReleaseType :=
  if bumpMajor || commits.any (commitTriggersMajor parse) then ReleaseType.major
  else if bumpMinor || commits.any (commitSetsMinorFlag parse) then ReleaseType.minor
  else ReleaseType.patch

/-- Modelled from the spec: the short form of the triggering revision
hash used by the Pre-release Suffixer.  The source of
`suffixWithPreRelease` (the tail of `logic.ts`) is not among the
provided files; the repository's test `logic.spec.ts` fixes the short
form as the first seven characters of the ambient `context.sha`
(`abcdef1234567890` yields `abcdef1`). -/
def shortShaOf (sha : String) : String :=
  sha.take 7

/-- Modelled from the spec: `suffixWithPreRelease` (the Pre-release
Suffixer, spec 4.2) is called from `main` and exercised by the
repository's tests, but its own source (the tail of `logic.ts`) is not
among the provided files.  Per the spec it appends a build identifier
derived from the current run's commit identifier (a short form of the
triggering revision hash) to the version string, joined by `glue`, with
no validation of `glue`; the ambient revision hash is passed explicitly
as `sha`. -/
def suffixWithPreRelease (sha : String) (version : String) (glue : String) : String :=
  version ++ glue ++ shortShaOf sha

/-- The interface of the external `semver` library as consumed by `main`:
`semver.valid` (normalized version string or null), `semver.inc`
(incremented version or null) and `semver.major`. -/
structure SemverLib where
  valid : String → Option String
  inc : String → ReleaseType → Option String
  major : String → Nat

/-- The values produced by the awaited GitHub collaborator calls inside
one run of `main`: `getLatestReleaseTag()`, `getListOfCommitsBetween`
(`Except.error` models the `catch` branch in `main`),
`getDefaultBranchName()`, and the ambient `context.sha` consumed by the
Pre-release Suffixer. -/
structure Collab where
  latestReleaseTag : Option String
  commitsBetween : Except String (List Commit)
  defaultBranch : String
  sha : String

/-- The observable outcome of one run of `main`: `failed` is the first
`core.setFailed` message (if any), the `...Out` fields are the
`core.setOutput` values (`none` when the output was never set because an
early `return` was taken first), and `newVersionPreSuffix` instruments
the value of the `newVersion` variable at the point
`semver.major(newVersion)` is computed, before any pre-release suffix. -/
structure MainResult where
  failed : Option String
  latestReleaseTagOut : Option String
  currentVersionOut : Option String
  newVersionOut : Option String
  newMajorVersionOut : Option Nat
  newVersionPreSuffix : Option String
deriving Repr, DecidableEq

/-- An early `core.setFailed(msg); return` exit of `main`: only the
`latest-release-tag` output, set before any failure point, is
populated. -/
def mainFailedResult (latestReleaseTagOutput msg : String) : MainResult :=
  { failed := some msg,
    latestReleaseTagOut := some latestReleaseTagOutput,
    currentVersionOut := none,
    newVersionOut := none,
    newMajorVersionOut := none,
    newVersionPreSuffix := none }

/-- The tail of `main` (from `core.setOutput('current-version', ...)` to
the end): capture the major component of `newVersion` before any
pre-release suffix, build the default branch ref, suffix exactly when
the target branch differs from it, and set the remaining outputs.
`classifierFailed` carries the `core.setFailed` message recorded inside
`getBumpTypeFromCommits` when classification aborted under the ERROR
reaction; the source reaches this code regardless, because the abort is
a bare `return` inside the callee, not in `main`. -/
def mainFinish (sem : SemverLib) (collab : Collab)
    (targetBranch preReleaseVersionGlue : String)
    (classifierFailed : Option String)
    (latestReleaseTagOutput currentVersion newVersion : String) : MainResult :=
  let newMajorVersion := sem.major newVersion
  let defaultBranchRef := "refs/heads/" ++ collab.defaultBranch
  let finalVersion :=
    if targetBranch ≠ defaultBranchRef then
      suffixWithPreRelease collab.sha newVersion preReleaseVersionGlue
    else newVersion
  { failed := classifierFailed,
    latestReleaseTagOut := some latestReleaseTagOutput,
    currentVersionOut := some currentVersion,
    newVersionOut := some finalVersion,
    newMajorVersionOut := some newMajorVersion,
    newVersionPreSuffix := some newVersion }

/-- The guarded classifier call in `main`: `bumpType` stays `null` when
`commits.length === 0`, otherwise it is the value returned by
`getBumpTypeFromCommits` (`Except.error` = the callee called
`core.setFailed` and returned `undefined`). -/
def classifierOutcome (parse : String → Option ParsedCommit) (commits : List Commit)
    (notConventionalCommitsReaction : NotConventionalCommitsReaction) :
    Option (Except String ReleaseType) :=
  if commits.length = 0 then none
  else some (getBumpTypeFromCommits parse commits notConventionalCommitsReaction)

/-- The `core.setFailed` message recorded during classification, if
classification aborted. -/
def classifierFailedMsg : Option (Except String ReleaseType) → Option String
  | some (Except.error msg) => some msg
  | _ => none

/-- The `if (!bumpType) { bumpType = 'patch'; }` coercion in `main`: a
`null` (no commits / nothing classified) or `undefined` (classification
aborted) bump type becomes `'patch'`. -/
def bumpTypeOrPatch : Option (Except String ReleaseType) → ReleaseType
  | some (Except.ok bt) => bt
  | _ => ReleaseType.patch

/-- `main` from `main.ts` (the variant taking `preReleaseVersionGlue`),
shallowly embedded: the awaited collaborator calls are the fields of
`collab`, the `semver` library is the `sem` parameter, the
conventional-commit parser is `parse`, and the string-to-enum conversion
of the reaction input (which in the source happens first and throws out
of `main` on an unrecognized value) is taken as already performed.
Side effects are recorded in the returned `MainResult`. -/
def main (sem : SemverLib) (parse : String → Option ParsedCommit) (collab : Collab)
    (targetBranch : String)
    (notConventionalCommitsReaction : NotConventionalCommitsReaction)
    (initReleaseVersion preReleaseVersionGlue : String) : MainResult :=
  let latestReleaseTagOutput := collab.latestReleaseTag.getD ""
  match collab.latestReleaseTag with
  | some latestReleaseTag =>
    match sem.valid latestReleaseTag with
    | none =>
      mainFailedResult latestReleaseTagOutput
        ("Latest release tag (" ++ latestReleaseTag ++ ") is not a valid semver version. Please ensure your latest release tag follows semver format.")
    | some currentVersion =>
      match collab.commitsBetween with
      | Except.error _ =>
        mainFailedResult latestReleaseTagOutput
          ("Failed to get the list of commits between " ++ latestReleaseTag ++ " and " ++ targetBranch ++ ". Please ensure the target branch exists.")
      | Except.ok commits =>
        let classifierResult := classifierOutcome parse commits notConventionalCommitsReaction
        let classifierFailed := classifierFailedMsg classifierResult
        let bumpType := bumpTypeOrPatch classifierResult
        match sem.inc currentVersion bumpType with
        | none =>
          match classifierFailed with
          | some msg => mainFailedResult latestReleaseTagOutput msg
          | none =>
            mainFailedResult latestReleaseTagOutput
              "Failed to increment version. Please check the current version and bump type."
        | some newVersion =>
          mainFinish sem collab targetBranch preReleaseVersionGlue classifierFailed
            latestReleaseTagOutput currentVersion newVersion
  | none =>
    match sem.valid initReleaseVersion with
    | none =>
      mainFailedResult latestReleaseTagOutput
        ("No valid latest release tag found and the provided initial version (" ++ initReleaseVersion ++ ") is not a valid semver version.")
    | some newVersion =>
      mainFinish sem collab targetBranch preReleaseVersionGlue none
        latestReleaseTagOutput "" newVersion

/-- One page of the `compareCommitsWithBasehead` response as consumed by
`getListOfCommitsBetween`: the page's commits and the reported
`total_commits` of the whole comparison. -/
structure ComparePage where
  commits : List Commit
  total_commits : Nat

/-- The `while (true)` pagination loop of
`GitHubClient.getListOfCommitsBetween`, with the API as the explicit
page-indexed function `api` (`Except.error status` models a thrown
request error carrying its HTTP status) and an explicit fuel bound for
the unbounded loop (`none` = fuel exhausted).  A `404` breaks the loop
and returns the commits accumulated so far; any other error is
rethrown.  The local `total_commits` (initially `-1` in the source) is
only ever read after a successful response has assigned it, so it is
carried here as the `Nat` of the latest response. -/
def getListOfCommitsBetweenLoop (api : Nat → Except Nat ComparePage) :
    Nat → List Commit → Nat → Option (Except Nat (List Commit))
  | 0, _, _ => none
  | Nat.succ fuel, listOfCommits, page =>
    match api page with
    | Except.error status =>
      if status = 404 then some (Except.ok listOfCommits)
      else some (Except.error status)
    | Except.ok response =>
      let listOfCommits2 := listOfCommits ++ response.commits
      if response.total_commits ≤ listOfCommits2.length then some (Except.ok listOfCommits2)
      else getListOfCommitsBetweenLoop api fuel listOfCommits2 (page + 1)

/-- `GitHubClient.getListOfCommitsBetween`: start with an empty list at
`page = 0`. -/
def getListOfCommitsBetween (api : Nat → Except Nat ComparePage) (fuel : Nat) :
    Option (Except Nat (List Commit)) :=
  getListOfCommitsBetweenLoop api fuel [] 0

/-- Modelled from the spec: decimal digit value of a character, part of
the concrete stand-in for the external `semver` library (an out-of-scope
collaborator assumed correct), used to instantiate theorems on concrete
runs. -/
def digitVal? (c : Char) : Option Nat :=
  if c.isDigit then some (c.toNat - 48) else none

/-- Modelled from the spec: decimal reading of a digit chunk (semver
model). -/
def chunkToNatCore : List Char → Nat → Option Nat
  | [], n => some n
  | c :: rest, n =>
    match digitVal? c with
    | some d => chunkToNatCore rest (10 * n + d)
    | none => none

/-- Modelled from the spec: a nonempty all-digit chunk as a number
(semver model). -/
def chunkToNat? : List Char → Option Nat
  | [] => none
  | c :: rest => chunkToNatCore (c :: rest) 0

/-- Modelled from the spec: split a character list at the dots (semver
model). -/
def splitDotsAux : List Char → List Char → List (List Char)
  | [], acc => [acc.reverse]
  | c :: rest, acc =>
    if c = '.' then acc.reverse :: splitDotsAux rest []
    else splitDotsAux rest (c :: acc)

/-- Modelled from the spec: drop one leading `v`, as `semver.valid`
accepts `v`-prefixed tags and returns the normalized version (semver
model). -/
def stripLeadingV : List Char → List Char
  | 'v' :: rest => rest
  | cs => cs

/-- Modelled from the spec: a plain `major.minor.patch` version string as
a triple of numbers (semver model; pre-release and build metadata are
not needed by any concrete run used here). -/
def parseSemverTriple (s : String) : Option (Nat × Nat × Nat) :=
  match splitDotsAux (stripLeadingV s.data) [] with
  | [a, b, c] =>
    match chunkToNat? a, chunkToNat? b, chunkToNat? c with
    | some x, some y, some z => some (x, y, z)
    | _, _, _ => none
  | _ => none

/-- Modelled from the spec: render a version triple (semver model). -/
def tripleToVersionString : Nat × Nat × Nat → String
  | (x, y, z) => toString x ++ "." ++ toString y ++ "." ++ toString z

/-- Modelled from the spec, 4.3 increment rules: major resets minor and
patch to 0, minor resets patch to 0, patch increments only the patch
component (semver model). -/
def bumpTriple : ReleaseType → Nat × Nat × Nat → Nat × Nat × Nat
  | ReleaseType.major, (x, _, _) => (x + 1, 0, 0)
  | ReleaseType.minor, (x, y, _) => (x, y + 1, 0)
  | ReleaseType.patch, (x, y, z) => (x, y, z + 1)

/-- Modelled from the spec: the concrete `semver` collaborator instance
for concrete runs.  `major` of an unparsable string defaults to 0 (the
source only applies `semver.major` to versions it has already
validated). -/
def semverImpl : SemverLib :=
  { valid := fun s => (parseSemverTriple s).map tripleToVersionString,
    inc := fun s ty => (parseSemverTriple s).map (fun t => tripleToVersionString (bumpTriple ty t)),
    major := fun s => ((parseSemverTriple s).map (fun t => t.1)).getD 0 }

/-- A concrete conventional-commit parser collaborator for instantiating
theorems: a handful of fixed messages parse, everything else fails.  The
`docs` message carries the text `BREAKING CHANGE` only in its free-text
body, so its parse has no footer note. -/
def parseFixture : String → Option ParsedCommit := fun message =>
  if message = "feat: add search" then
    some { type := "feat", notes := [] }
  else if message = "feat!: drop old api" then
    some { type := "feat", notes := [{ title := "BREAKING CHANGE", text := "drop old api" }] }
  else if message = "fix: correct rounding" then
    some { type := "fix", notes := [] }
  else if message = "docs: the body mentions BREAKING CHANGE in prose" then
    some { type := "docs", notes := [] }
  else none

/-- Fixture commit: a `feat` commit. -/
def commitFeat : Commit := { sha := "abc123", message := "feat: add search" }

/-- Fixture commit: a breaking-change commit (bang form, normalized by
the parser into a `BREAKING CHANGE` note). -/
def commitBang : Commit := { sha := "abc124", message := "feat!: drop old api" }

/-- Fixture commit: a `fix` commit. -/
def commitFix : Commit := { sha := "abc125", message := "fix: correct rounding" }

/-- Fixture commit: a message that is not in conventional-commits
format. -/
def commitBad : Commit := { sha := "abc126", message := "not conventional" }

/-- Fixture commit: a message whose free-text body mentions
`BREAKING CHANGE` without a structured footer note. -/
def commitDocsBody : Commit :=
  { sha := "abc127", message := "docs: the body mentions BREAKING CHANGE in prose" }

/-- Fixture commit: a merge commit. -/
def commitMergeA : Commit := { sha := "abc128", message := "Merge branch dev into main" }

/-- Fixture commit: another merge commit. -/
def commitMergeB : Commit := { sha := "abc129", message := "Merge pull request #7 from user/branch" }

/-- Fixture collaborator state: a malformed commit after a valid latest
release, target equal to the default branch. -/
def collabAbort : Collab :=
  { latestReleaseTag := some "v1.0.0",
    commitsBetween := Except.ok [commitBad],
    defaultBranch := "main",
    sha := "abc1234567890def" }

/-- Fixture collaborator state: one `feat` commit after release `v1.2.3`. -/
def collabFeat : Collab :=
  { latestReleaseTag := some "v1.2.3",
    commitsBetween := Except.ok [commitFeat],
    defaultBranch := "main",
    sha := "abcdef1234567890" }

/-- Fixture collaborator state: an invalid latest release tag. -/
def collabInvalidTag : Collab :=
  { latestReleaseTag := some "invalid-tag",
    commitsBetween := Except.ok [],
    defaultBranch := "main",
    sha := "abcdef1234567890" }

/-- Fixture API: the range comparison reports not-found (HTTP 404) on
every page, in particular on the first. -/
def compareApiNotFound : Nat → Except Nat ComparePage := fun _ => Except.error 404

theorem bumpResult_nil (parse : String → Option ParsedCommit) (b1 b2 : Bool) :
    bumpResult parse [] b1 b2
      = (if b1 then ReleaseType.major else if b2 then ReleaseType.minor else ReleaseType.patch) := by
  simp [bumpResult]

theorem bumpResult_cons (parse : String → Option ParsedCommit) (c : Commit)
    (rest : List Commit) (b1 b2 : Bool) :
    bumpResult parse (c :: rest) b1 b2
      = bumpResult parse rest (b1 || commitTriggersMajor parse c)
          (b2 || commitSetsMinorFlag parse c) := by
  simp [bumpResult, List.any_cons, Bool.or_assoc]

theorem getBumpTypeFromCommitsAux_eq_ok (parse : String → Option ParsedCommit)
    (reaction : NotConventionalCommitsReaction)
    (h : reaction ≠ NotConventionalCommitsReaction.ERROR) :
    ∀ (commits : List Commit) (b1 b2 : Bool),
      getBumpTypeFromCommitsAux parse reaction commits b1 b2
        = Except.ok (bumpResult parse commits b1 b2) := by
  intro commits
  induction commits with
  | nil =>
    intro b1 b2
    simp [getBumpTypeFromCommitsAux, bumpResult_nil]
  | cons c rest ih =>
    intro b1 b2
    rw [bumpResult_cons]
    by_cases hig : ignoreMessagePattern c.message = true
    · simp [getBumpTypeFromCommitsAux, hig, ih, commitTriggersMajor, commitSetsMinorFlag]
    · cases hp : parse c.message with
      | none =>
        cases reaction with
        | ERROR => exact absurd rfl h
        | WARN =>
          simp [getBumpTypeFromCommitsAux, hig, hp, ih, commitTriggersMajor, commitSetsMinorFlag]
        | IGNORE =>
          simp [getBumpTypeFromCommitsAux, hig, hp, ih, commitTriggersMajor, commitSetsMinorFlag]
      | some p =>
        by_cases hbr : p.notes.any noteHasBreakingChange = true
        · simp [getBumpTypeFromCommitsAux, hig, hp, hbr, ih, commitTriggersMajor, commitSetsMinorFlag]
        · by_cases hmin : lowerString p.type ∈ MINOR_LIST
          · simp [getBumpTypeFromCommitsAux, hig, hp, hbr, hmin, ih,
                  commitTriggersMajor, commitSetsMinorFlag]
          · simp [getBumpTypeFromCommitsAux, hig, hp, hbr, hmin, ih,
                  commitTriggersMajor, commitSetsMinorFlag]

theorem getBumpTypeFromCommitsAux_ok_eq (parse : String → Option ParsedCommit)
    (reaction : NotConventionalCommitsReaction) :
    ∀ (commits : List Commit) (b1 b2 : Bool) (r : ReleaseType),
      getBumpTypeFromCommitsAux parse reaction commits b1 b2 = Except.ok r →
      r = bumpResult parse commits b1 b2 := by
  intro commits
  induction commits with
  | nil =>
    intro b1 b2 r hok
    simp only [getBumpTypeFromCommitsAux, Except.ok.injEq] at hok
    rw [← hok, bumpResult_nil]
  | cons c rest ih =>
    intro b1 b2 r hok
    rw [bumpResult_cons]
    by_cases hig : ignoreMessagePattern c.message = true
    · simp only [getBumpTypeFromCommitsAux, hig, if_pos] at hok
      have := ih b1 b2 r hok
      simpa [commitTriggersMajor, commitSetsMinorFlag, hig] using this
    · cases hp : parse c.message with
      | none =>
        cases reaction with
        | ERROR => simp [getBumpTypeFromCommitsAux, hig, hp] at hok
        | WARN =>
          simp [getBumpTypeFromCommitsAux, hig, hp] at hok
          have := ih b1 b2 r hok
          simpa [commitTriggersMajor, commitSetsMinorFlag, hig, hp] using this
        | IGNORE =>
          simp [getBumpTypeFromCommitsAux, hig, hp] at hok
          have := ih b1 b2 r hok
          simpa [commitTriggersMajor, commitSetsMinorFlag, hig, hp] using this
      | some p =>
        by_cases hbr : p.notes.any noteHasBreakingChange = true
        · simp [getBumpTypeFromCommitsAux, hig, hp, hbr] at hok
          have := ih true b2 r hok
          simpa [commitTriggersMajor, commitSetsMinorFlag, hig, hp, hbr] using this
        · by_cases hmin : lowerString p.type ∈ MINOR_LIST
          · simp [getBumpTypeFromCommitsAux, hig, hp, hbr, hmin] at hok
            have := ih b1 true r hok
            simpa [commitTriggersMajor, commitSetsMinorFlag, hig, hp, hbr, hmin] using this
          · simp [getBumpTypeFromCommitsAux, hig, hp, hbr, hmin] at hok
            have := ih b1 b2 r hok
            simpa [commitTriggersMajor, commitSetsMinorFlag, hig, hp, hbr, hmin] using this

theorem any_minorFlag_eq_minorType (parse : String → Option ParsedCommit) :
    ∀ (commits : List Commit),
      commits.any (commitTriggersMajor parse) = false →
      commits.any (commitSetsMinorFlag parse) = commits.any (commitHasMinorType parse) := by
  intro commits
  induction commits with
  | nil => intro _; rfl
  | cons c rest ih =>
    intro h
    rw [List.any_cons, Bool.or_eq_false_iff] at h
    obtain ⟨h1, h2⟩ := h
    rw [List.any_cons, List.any_cons, ih h2]
    congr 1
    by_cases hig : ignoreMessagePattern c.message = true
    · simp [commitSetsMinorFlag, commitHasMinorType, hig]
    · cases hp : parse c.message with
      | none => simp [commitSetsMinorFlag, commitHasMinorType, hig, hp]
      | some p =>
        simp only [commitTriggersMajor, hp, Bool.and_eq_false_iff] at h1
        rcases h1 with h1 | h1
        · simp [hig] at h1
        · simp [commitSetsMinorFlag, commitHasMinorType, hig, hp, h1]

/-- Claim C1: when classification runs to completion (no ERROR abort),
`getBumpTypeFromCommits` returns `major` exactly when some non-ignored,
successfully parsed commit carries a breaking-change note, else `minor`
when some non-ignored, successfully parsed commit has lower-cased type
token in `MINOR_LIST` (`feat` / `feature`), else `patch`; and the empty
commit sequence yields `patch` under every reaction. -/
theorem getBumpType_ok_characterization (parse : String → Option ParsedCommit)
    (commits : List Commit) (reaction : NotConventionalCommitsReaction)
    (r : ReleaseType)
    (h : getBumpTypeFromCommits parse commits reaction = Except.ok r) :
    r = (if commits.any (commitTriggersMajor parse) then ReleaseType.major
         else if commits.any (commitHasMinorType parse) then ReleaseType.minor
         else ReleaseType.patch)
    ∧ getBumpTypeFromCommits parse [] reaction = Except.ok ReleaseType.patch := by
  constructor
  · have hr := getBumpTypeFromCommitsAux_ok_eq parse reaction commits false false r h
    rw [hr]
    by_cases hM : commits.any (commitTriggersMajor parse) = true
    · simp [bumpResult, hM]
    · have hM2 : commits.any (commitTriggersMajor parse) = false := by
        simpa using hM
      simp [bumpResult, hM2, any_minorFlag_eq_minorType parse commits hM2]
  · rfl

theorem getBumpType_ok_characterization_witness :
    getBumpTypeFromCommits parseFixture [commitFeat, commitFix]
        NotConventionalCommitsReaction.WARN = Except.ok ReleaseType.minor
    ∧ (ReleaseType.minor
        = (if [commitFeat, commitFix].any (commitTriggersMajor parseFixture) then ReleaseType.major
           else if [commitFeat, commitFix].any (commitHasMinorType parseFixture) then ReleaseType.minor
           else ReleaseType.patch)
       ∧ getBumpTypeFromCommits parseFixture [] NotConventionalCommitsReaction.WARN
           = Except.ok ReleaseType.patch) :=
  ⟨by rfl,
   getBumpType_ok_characterization parseFixture [commitFeat, commitFix]
     NotConventionalCommitsReaction.WARN ReleaseType.minor (by rfl)⟩

/-- Claim C5: `noteHasBreakingChange` accepts exactly the literal title
`BREAKING CHANGE` (case-sensitive), and for a single successfully parsed
non-ignored commit the classifier yields `major` precisely when some
footer note satisfies it — so the text `BREAKING CHANGE` appearing only
in the free-text body (a parse with no such structured note) does not
trigger a major bump. -/
theorem breakingNote_exact_title (parse : String → Option ParsedCommit)
    (c : Commit) (p : ParsedCommit) (reaction : NotConventionalCommitsReaction)
    (note : Note)
    (h1 : parse c.message = some p)
    (h2 : ignoreMessagePattern c.message = false) :
    (noteHasBreakingChange note = true ↔ note.title = "BREAKING CHANGE")
    ∧ (getBumpTypeFromCommits parse [c] reaction = Except.ok ReleaseType.major
        ↔ p.notes.any noteHasBreakingChange = true) := by
  constructor
  · simp [noteHasBreakingChange, BREAKING_CHANGE]
  · by_cases hbr : p.notes.any noteHasBreakingChange = true
    · simp [getBumpTypeFromCommits, getBumpTypeFromCommitsAux, h1, h2, hbr]
    · by_cases hmin : lowerString p.type ∈ MINOR_LIST
      · simp [getBumpTypeFromCommits, getBumpTypeFromCommitsAux, h1, h2, hbr, hmin]
      · simp [getBumpTypeFromCommits, getBumpTypeFromCommitsAux, h1, h2, hbr, hmin]

theorem breakingNote_exact_title_witness :
    parseFixture commitDocsBody.message = some (ParsedCommit.mk "docs" [])
    ∧ ignoreMessagePattern commitDocsBody.message = false
    ∧ ((noteHasBreakingChange (Note.mk "BREAKING CHANGE" "x") = true
          ↔ (Note.mk "BREAKING CHANGE" "x").title = "BREAKING CHANGE")
       ∧ (getBumpTypeFromCommits parseFixture [commitDocsBody]
            NotConventionalCommitsReaction.WARN = Except.ok ReleaseType.major
          ↔ (ParsedCommit.mk "docs" []).notes.any noteHasBreakingChange = true)) :=
  ⟨by rfl, by rfl,
   breakingNote_exact_title parseFixture commitDocsBody (ParsedCommit.mk "docs" [])
     NotConventionalCommitsReaction.WARN (Note.mk "BREAKING CHANGE" "x") (by rfl) (by rfl)⟩

theorem getBumpTypeFromCommitsAux_all_ignored (parse : String → Option ParsedCommit)
    (reaction : NotConventionalCommitsReaction) :
    ∀ (commits : List Commit), (∀ d ∈ commits, ignoreMessagePattern d.message = true) →
    ∀ (b1 b2 : Bool),
      getBumpTypeFromCommitsAux parse reaction commits b1 b2
        = Except.ok (if b1 then ReleaseType.major else if b2 then ReleaseType.minor
                     else ReleaseType.patch) := by
  intro commits
  induction commits with
  | nil => intro _ b1 b2; rfl
  | cons c rest ih =>
    intro h b1 b2
    have hc := h c (List.mem_cons_self c rest)
    have hrest : ∀ d ∈ rest, ignoreMessagePattern d.message = true :=
      fun d hd => h d (List.mem_cons_of_mem c hd)
    simp [getBumpTypeFromCommitsAux, hc, ih hrest]

theorem parseAttempts_all_ignored (parse : String → Option ParsedCommit)
    (reaction : NotConventionalCommitsReaction) :
    ∀ (commits : List Commit), (∀ d ∈ commits, ignoreMessagePattern d.message = true) →
      parseAttempts parse reaction commits = [] := by
  intro commits
  induction commits with
  | nil => intro _; rfl
  | cons c rest ih =>
    intro h
    have hc := h c (List.mem_cons_self c rest)
    have hrest : ∀ d ∈ rest, ignoreMessagePattern d.message = true :=
      fun d hd => h d (List.mem_cons_of_mem c hd)
    simp [parseAttempts, hc, ih hrest]

/-- Claim C6: every commit whose message starts with the literal token
`Merge ` is skipped without a parse attempt, so a sequence of only such
messages yields `patch` under every reaction — including ERROR, and even
with a parser that would fail on every message. -/
theorem merge_only_commits_patch (parse : String → Option ParsedCommit)
    (reaction : NotConventionalCommitsReaction) (commits : List Commit)
    (h : ∀ d ∈ commits, ignoreMessagePattern d.message = true) :
    getBumpTypeFromCommits parse commits reaction = Except.ok ReleaseType.patch
    ∧ parseAttempts parse reaction commits = [] :=
  ⟨getBumpTypeFromCommitsAux_all_ignored parse reaction commits h false false,
   parseAttempts_all_ignored parse reaction commits h⟩

theorem merge_only_commits_patch_witness :
    (∀ d ∈ [commitMergeA, commitMergeB], ignoreMessagePattern d.message = true)
    ∧ (getBumpTypeFromCommits (fun _ => none) [commitMergeA, commitMergeB]
         NotConventionalCommitsReaction.ERROR = Except.ok ReleaseType.patch
       ∧ parseAttempts (fun _ => none) NotConventionalCommitsReaction.ERROR
           [commitMergeA, commitMergeB] = []) :=
  ⟨by decide,
   merge_only_commits_patch (fun _ => none) NotConventionalCommitsReaction.ERROR
     [commitMergeA, commitMergeB] (by decide)⟩

theorem getBumpTypeFromCommitsAux_filter_merge (parse : String → Option ParsedCommit)
    (reaction : NotConventionalCommitsReaction) :
    ∀ (commits : List Commit) (b1 b2 : Bool),
      getBumpTypeFromCommitsAux parse reaction
          (commits.filter (fun d => !ignoreMessagePattern d.message)) b1 b2
        = getBumpTypeFromCommitsAux parse reaction commits b1 b2 := by
  intro commits
  induction commits with
  | nil => intro b1 b2; rfl
  | cons c rest ih =>
    intro b1 b2
    by_cases hig : ignoreMessagePattern c.message = true
    · simp [List.filter_cons, hig, getBumpTypeFromCommitsAux, ih]
    · cases hp : parse c.message with
      | none =>
        cases reaction with
        | ERROR => simp [List.filter_cons, hig, getBumpTypeFromCommitsAux, hp]
        | WARN => simp [List.filter_cons, hig, getBumpTypeFromCommitsAux, hp, ih]
        | IGNORE => simp [List.filter_cons, hig, getBumpTypeFromCommitsAux, hp, ih]
      | some p =>
        by_cases hbr : p.notes.any noteHasBreakingChange = true
        · simp [List.filter_cons, hig, getBumpTypeFromCommitsAux, hp, hbr, ih]
        · by_cases hmin : lowerString p.type ∈ MINOR_LIST
          · simp [List.filter_cons, hig, getBumpTypeFromCommitsAux, hp, hbr, hmin, ih]
          · simp [List.filter_cons, hig, getBumpTypeFromCommitsAux, hp, hbr, hmin, ih]

/-- Claim C7: removing every merge-pattern message (those starting with
`Merge `) from the commit sequence leaves the classification result —
including an ERROR abort and its message — unchanged, under every
reaction. -/
theorem classification_unchanged_without_merges (parse : String → Option ParsedCommit)
    (commits : List Commit) (reaction : NotConventionalCommitsReaction) :
    getBumpTypeFromCommits parse
        (commits.filter (fun d => !ignoreMessagePattern d.message)) reaction
      = getBumpTypeFromCommits parse commits reaction :=
  getBumpTypeFromCommitsAux_filter_merge parse reaction commits false false

theorem getBumpTypeFromCommitsAux_error_first_malformed
    (parse : String → Option ParsedCommit) (c : Commit) (post : List Commit)
    (hig : ignoreMessagePattern c.message = false) (hp : parse c.message = none) :
    ∀ (pre : List Commit),
      (∀ d ∈ pre, ignoreMessagePattern d.message = true ∨ (parse d.message).isSome = true) →
      ∀ (b1 b2 : Bool),
        getBumpTypeFromCommitsAux parse NotConventionalCommitsReaction.ERROR
            (pre ++ c :: post) b1 b2
          = Except.error
              ("Commit message not in conventional-commits format: \x27" ++ c.message ++ "\x27") := by
  intro pre
  induction pre with
  | nil =>
    intro _ b1 b2
    simp [getBumpTypeFromCommitsAux, hig, hp]
  | cons d pre ih =>
    intro hpre b1 b2
    have hd := hpre d (List.mem_cons_self d pre)
    have hrest : ∀ e ∈ pre, ignoreMessagePattern e.message = true ∨ (parse e.message).isSome = true :=
      fun e he => hpre e (List.mem_cons_of_mem d he)
    rcases hd with hdig | hdparse
    · simp [getBumpTypeFromCommitsAux, hdig, ih hrest]
    · obtain ⟨p, hp2⟩ := Option.isSome_iff_exists.mp hdparse
      by_cases hdig2 : ignoreMessagePattern d.message = true
      · simp [getBumpTypeFromCommitsAux, hdig2, ih hrest]
      · by_cases hbr : p.notes.any noteHasBreakingChange = true
        · simp [getBumpTypeFromCommitsAux, hdig2, hp2, hbr, ih hrest]
        · by_cases hmin : lowerString p.type ∈ MINOR_LIST
          · simp [getBumpTypeFromCommitsAux, hdig2, hp2, hbr, hmin, ih hrest]
          · simp [getBumpTypeFromCommitsAux, hdig2, hp2, hbr, hmin, ih hrest]

theorem parseAttempts_error_first_malformed
    (parse : String → Option ParsedCommit) (c : Commit) (post : List Commit)
    (hig : ignoreMessagePattern c.message = false) (hp : parse c.message = none) :
    ∀ (pre : List Commit),
      (∀ d ∈ pre, ignoreMessagePattern d.message = true ∨ (parse d.message).isSome = true) →
      parseAttempts parse NotConventionalCommitsReaction.ERROR (pre ++ c :: post)
        = parseAttempts parse NotConventionalCommitsReaction.ERROR pre ++ [c.message] := by
  intro pre
  induction pre with
  | nil =>
    intro _
    simp [parseAttempts, hig, hp]
  | cons d pre ih =>
    intro hpre
    have hd := hpre d (List.mem_cons_self d pre)
    have hrest : ∀ e ∈ pre, ignoreMessagePattern e.message = true ∨ (parse e.message).isSome = true :=
      fun e he => hpre e (List.mem_cons_of_mem d he)
    rcases hd with hdig | hdparse
    · simp [parseAttempts, hdig, ih hrest]
    · obtain ⟨p, hp2⟩ := Option.isSome_iff_exists.mp hdparse
      by_cases hdig2 : ignoreMessagePattern d.message = true
      · simp [parseAttempts, hdig2, ih hrest]
      · simp [parseAttempts, hdig2, hp2, ih hrest]

/-- Claim C2: under the ERROR reaction, reaching the first non-ignored
commit whose message fails to parse makes `getBumpTypeFromCommits`
terminate immediately with the failure condition naming that message (no
usable bump type: the result is `Except.error`, not `patch`), and no
commit after it is ever handed to the parser (`parseAttempts` ends at
the offending message). -/
theorem getBumpType_ERROR_abort (parse : String → Option ParsedCommit)
    (pre post : List Commit) (c : Commit)
    (hpre : ∀ d ∈ pre, ignoreMessagePattern d.message = true ∨ (parse d.message).isSome = true)
    (hig : ignoreMessagePattern c.message = false)
    (hp : parse c.message = none) :
    getBumpTypeFromCommits parse (pre ++ c :: post) NotConventionalCommitsReaction.ERROR
      = Except.error
          ("Commit message not in conventional-commits format: \x27" ++ c.message ++ "\x27")
    ∧ parseAttempts parse NotConventionalCommitsReaction.ERROR (pre ++ c :: post)
      = parseAttempts parse NotConventionalCommitsReaction.ERROR pre ++ [c.message] :=
  ⟨getBumpTypeFromCommitsAux_error_first_malformed parse c post hig hp pre hpre false false,
   parseAttempts_error_first_malformed parse c post hig hp pre hpre⟩

theorem getBumpType_ERROR_abort_witness :
    (∀ d ∈ [commitMergeA, commitFeat],
        ignoreMessagePattern d.message = true ∨ (parseFixture d.message).isSome = true)
    ∧ ignoreMessagePattern commitBad.message = false
    ∧ parseFixture commitBad.message = none
    ∧ (getBumpTypeFromCommits parseFixture
           ([commitMergeA, commitFeat] ++ commitBad :: [commitBang])
           NotConventionalCommitsReaction.ERROR
         = Except.error
             ("Commit message not in conventional-commits format: \x27" ++ commitBad.message ++ "\x27")
       ∧ parseAttempts parseFixture NotConventionalCommitsReaction.ERROR
           ([commitMergeA, commitFeat] ++ commitBad :: [commitBang])
         = parseAttempts parseFixture NotConventionalCommitsReaction.ERROR
             [commitMergeA, commitFeat] ++ [commitBad.message]) :=
  ⟨by decide, by rfl, by rfl,
   getBumpType_ERROR_abort parseFixture [commitMergeA, commitFeat] [commitBang] commitBad
     (by decide) (by rfl) (by rfl)⟩

/-- Claim C10 (implicit): under the WARN or IGNORE reaction the two bump
flags are only ever set, never cleared, so appending a commit to the
list never decreases the classification result in the severity order
PATCH < MINOR < MAJOR. -/
theorem append_commit_monotone (parse : String → Option ParsedCommit)
    (commits : List Commit) (c : Commit) (reaction : NotConventionalCommitsReaction)
    (hre : reaction ≠ NotConventionalCommitsReaction.ERROR)
    (r r2 : ReleaseType)
    (h1 : getBumpTypeFromCommits parse commits reaction = Except.ok r)
    (h2 : getBumpTypeFromCommits parse (commits ++ [c]) reaction = Except.ok r2) :
    severity r ≤ severity r2 := by
  rw [getBumpTypeFromCommits,
      getBumpTypeFromCommitsAux_eq_ok parse reaction hre commits false false,
      Except.ok.injEq] at h1
  rw [getBumpTypeFromCommits,
      getBumpTypeFromCommitsAux_eq_ok parse reaction hre (commits ++ [c]) false false,
      Except.ok.injEq] at h2
  rw [← h1, ← h2]
  simp only [bumpResult, List.any_append, List.any_cons, List.any_nil,
             Bool.or_false, Bool.false_or]
  by_cases hA : commits.any (commitTriggersMajor parse) = true <;>
    by_cases hB : commits.any (commitSetsMinorFlag parse) = true <;>
      by_cases hC : commitTriggersMajor parse c = true <;>
        by_cases hD : commitSetsMinorFlag parse c = true <;>
          simp [hA, hB, hC, hD, severity]

theorem append_commit_monotone_witness :
    NotConventionalCommitsReaction.WARN ≠ NotConventionalCommitsReaction.ERROR
    ∧ getBumpTypeFromCommits parseFixture [commitFeat]
        NotConventionalCommitsReaction.WARN = Except.ok ReleaseType.minor
    ∧ getBumpTypeFromCommits parseFixture ([commitFeat] ++ [commitBang])
        NotConventionalCommitsReaction.WARN = Except.ok ReleaseType.major
    ∧ severity ReleaseType.minor ≤ severity ReleaseType.major :=
  ⟨by decide, by rfl, by rfl,
   append_commit_monotone parseFixture [commitFeat] commitBang
     NotConventionalCommitsReaction.WARN (by decide)
     ReleaseType.minor ReleaseType.major (by rfl) (by rfl)⟩

/-- Claim C8: the suffix operation returns the version string, then the
glue embedded verbatim (no validation), then the short form of the
ambient triggering-revision hash; with ambient hash `abcdef1234567890`
(short form `abcdef1`), `suffix("1.2.3", "-rc.")` yields
`"1.2.3-rc.abcdef1"`, matching the repository's test.  The operation is
a pure function of its arguments, so the input version is not
mutated. -/
theorem suffixWithPreRelease_appends (version glue sha : String) :
    suffixWithPreRelease sha version glue = version ++ glue ++ shortShaOf sha
    ∧ suffixWithPreRelease "abcdef1234567890" "1.2.3" "-rc." = "1.2.3-rc.abcdef1" :=
  ⟨rfl, rfl⟩

theorem mainFinish_outputs (sem : SemverLib) (collab : Collab)
    (targetBranch glue : String) (cf : Option String)
    (lo cv nv : String) :
    (mainFinish sem collab targetBranch glue cf lo cv nv).newVersionPreSuffix = some nv
    ∧ (mainFinish sem collab targetBranch glue cf lo cv nv).newMajorVersionOut
        = some (sem.major nv)
    ∧ (mainFinish sem collab targetBranch glue cf lo cv nv).newVersionOut
        = some (if targetBranch = "refs/heads/" ++ collab.defaultBranch then nv
                else suffixWithPreRelease collab.sha nv glue) := by
  refine ⟨rfl, rfl, ?_⟩
  by_cases h : targetBranch = "refs/heads/" ++ collab.defaultBranch
  · simp [mainFinish, h]
  · simp [mainFinish, h]

/-- Claim C9: on every successful run the emitted new-major-version is
`semver.major` of the incremented (or initial) version as it was before
any pre-release suffix, and the emitted new-version applies the suffix
exactly when the target branch differs from the default branch ref — so
suffixing leaves the emitted numeric major unchanged. -/
theorem newMajor_captured_before_suffix (sem : SemverLib)
    (parse : String → Option ParsedCommit) (collab : Collab)
    (targetBranch : String) (reaction : NotConventionalCommitsReaction)
    (initReleaseVersion glue : String)
    (h : (main sem parse collab targetBranch reaction initReleaseVersion glue).failed = none) :
    ∃ v,
      (main sem parse collab targetBranch reaction initReleaseVersion glue).newVersionPreSuffix
        = some v
      ∧ (main sem parse collab targetBranch reaction initReleaseVersion glue).newMajorVersionOut
          = some (sem.major v)
      ∧ (main sem parse collab targetBranch reaction initReleaseVersion glue).newVersionOut
          = some (if targetBranch = "refs/heads/" ++ collab.defaultBranch then v
                  else suffixWithPreRelease collab.sha v glue) := by
  cases hl : collab.latestReleaseTag with
  | none =>
    cases hv : sem.valid initReleaseVersion with
    | none => simp [main, hl, hv, mainFailedResult] at h
    | some nv =>
      simp only [main, hl, hv] at h ⊢
      exact ⟨nv, mainFinish_outputs sem collab targetBranch glue none _ "" nv⟩
  | some tag =>
    cases hv : sem.valid tag with
    | none => simp [main, hl, hv, mainFailedResult] at h
    | some cv =>
      cases hc : collab.commitsBetween with
      | error e => simp [main, hl, hv, hc, mainFailedResult] at h
      | ok commits =>
        cases hi : sem.inc cv (bumpTypeOrPatch (classifierOutcome parse commits reaction)) with
        | none =>
          simp only [main, hl, hv, hc, hi] at h
          cases hm : classifierFailedMsg (classifierOutcome parse commits reaction) with
          | none => simp [hm, mainFailedResult] at h
          | some m => simp [hm, mainFailedResult] at h
        | some nv =>
          simp only [main, hl, hv, hc, hi] at h ⊢
          exact ⟨nv, mainFinish_outputs sem collab targetBranch glue _ _ cv nv⟩

theorem newMajor_captured_before_suffix_witness :
    (main semverImpl parseFixture collabFeat "refs/heads/dev"
        NotConventionalCommitsReaction.WARN "0.1.0" "-rc.").failed = none
    ∧ ∃ v,
        (main semverImpl parseFixture collabFeat "refs/heads/dev"
            NotConventionalCommitsReaction.WARN "0.1.0" "-rc.").newVersionPreSuffix = some v
        ∧ (main semverImpl parseFixture collabFeat "refs/heads/dev"
              NotConventionalCommitsReaction.WARN "0.1.0" "-rc.").newMajorVersionOut
            = some (semverImpl.major v)
        ∧ (main semverImpl parseFixture collabFeat "refs/heads/dev"
              NotConventionalCommitsReaction.WARN "0.1.0" "-rc.").newVersionOut
            = some (if "refs/heads/dev" = "refs/heads/" ++ collabFeat.defaultBranch then v
                    else suffixWithPreRelease collabFeat.sha v "-rc.") :=
  ⟨by rfl,
   newMajor_captured_before_suffix semverImpl parseFixture collabFeat "refs/heads/dev"
     NotConventionalCommitsReaction.WARN "0.1.0" "-rc." (by rfl)⟩

/-- Claim C3 is contradicted by the code: a classification abort under
the ERROR reaction does raise the failure condition (`core.setFailed`
inside `getBumpTypeFromCommits`), but `main` then coerces the
`undefined` bump type to `patch` via `if (!bumpType)`, increments, and
still sets the `new-version` output.  Concretely, with latest release
`v1.0.0` and one malformed commit under ERROR, the run is marked failed
and yet `new-version` is populated with `1.0.1`. -/
theorem main_emits_newVersion_after_classifier_abort :
    (main semverImpl parseFixture collabAbort "refs/heads/main"
        NotConventionalCommitsReaction.ERROR "0.1.0" "-").failed
      = some "Commit message not in conventional-commits format: \x27not conventional\x27"
    ∧ (main semverImpl parseFixture collabAbort "refs/heads/main"
          NotConventionalCommitsReaction.ERROR "0.1.0" "-").newVersionOut
      = some "1.0.1" :=
  ⟨rfl, rfl⟩

/-- Claim C4 is contradicted by the code: when the range comparison
reports not-found (HTTP 404) on the first page,
`getListOfCommitsBetween` breaks out of its pagination loop and returns
the empty commit list instead of failing with a range-not-found
condition — the `catch` treats a 404 identically to running past the
last page. -/
theorem getListOfCommitsBetween_404_first_page_returns_empty
    (api : Nat → Except Nat ComparePage) (fuel : Nat)
    (h : api 0 = Except.error 404) :
    getListOfCommitsBetween api (fuel + 1) = some (Except.ok []) := by
  simp [getListOfCommitsBetween, getListOfCommitsBetweenLoop, h]

theorem getListOfCommitsBetween_404_first_page_returns_empty_witness :
    compareApiNotFound 0 = Except.error 404
    ∧ getListOfCommitsBetween compareApiNotFound 1 = some (Except.ok []) :=
  ⟨rfl,
   getListOfCommitsBetween_404_first_page_returns_empty compareApiNotFound 0 rfl⟩

end ActionSemver
